import Mathlib

/-!
Verification development for the `generate_pdf.py` invoice-PDF generator.

The source program loads CSV or JSON data, normalizes it into a mapping
from invoice identifiers to lists of line items, lets the user pick a
file / template / invoice through a numbered menu, and renders a PDF.

We shallowly embed the Python program: Python values become the inductive
type `PyVal`, dictionaries become insertion-ordered association lists,
fallible operations (attribute errors, `int()` coercion failures,
unhashable keys) return `Except String`.
-/

set_option autoImplicit false

namespace PdfGen

/-- Model of the Python values that flow through the program:
`None`, booleans, ints, floats (modelled as rationals), strings,
lists and dicts (insertion-ordered association lists). -/
inductive PyVal : Type where
  | none : PyVal
  | bool : Bool → PyVal
  | int : Int → PyVal
  | float : ℚ → PyVal
  | str : String → PyVal
  | list : List PyVal → PyVal
  | dict : List (PyVal × PyVal) → PyVal

/-- Python truthiness (`bool(v)`): `None`, `False`, zero, empty string,
empty list and empty dict are falsy. -/
def truthy : PyVal → Bool
  | .none => false
  | .bool b => b
  | .int n => n != 0
  | .float q => q != 0
  | .str s => s != ""
  | .list xs => !xs.isEmpty
  | .dict kvs => !kvs.isEmpty

/-- `a or b` in Python: `a` when truthy, else `b`. -/
def pyOr (a b : PyVal) : PyVal := if truthy a then a else b

/-- Python `==` restricted to hashable values (the only values that can be
compared as dict keys in this program: every key the program inserts is
checked hashable first).  Numeric types compare across `bool`/`int`/`float`
as in Python; lists and dicts are unhashable and never reach a key
comparison, so they compare unequal here. -/
def pyEq : PyVal → PyVal → Bool
  | .none, .none => true
  | .str s, .str t => s == t
  | .bool a, .bool b => a == b
  | .bool a, .int n => (if a then (1 : Int) else 0) == n
  | .bool a, .float q => (if a then (1 : ℚ) else 0) == q
  | .int m, .bool b => m == (if b then (1 : Int) else 0)
  | .int m, .int n => m == n
  | .int m, .float q => ((m : ℚ)) == q
  | .float p, .bool b => p == (if b then (1 : ℚ) else 0)
  | .float p, .int n => p == ((n : ℚ))
  | .float p, .float q => p == q
  | _, _ => false

/-- Whether a value may be used as a dict key (Python hashability for the
types in our model: lists and dicts are unhashable). -/
def hashable : PyVal → Bool
  | .list _ => false
  | .dict _ => false
  | _ => true

/-- Lookup in a dict body by Python key equality. -/
def dictLookup : List (PyVal × PyVal) → PyVal → Option PyVal
  | [], _ => Option.none
  | (k, v) :: rest, key => if pyEq k key then some v else dictLookup rest key

/-- `v.get(key, default)`: raises `AttributeError` when `v` is not a dict
(exactly what CPython does when the program calls `.get` on a non-dict). -/
def pyGet (v : PyVal) (key : String) (dflt : PyVal) : Except String PyVal :=
  match v with
  | .dict kvs => .ok ((dictLookup kvs (.str key)).getD dflt)
  | _ => .error "AttributeError: no attribute get"

/-- Rendering of a float value; Python prints integral floats with a
trailing `.0`.  (Only the CSV branch ever stringifies values, and the
loaders put strings or numbers there; the exact digits of non-integral
rationals are not load-bearing for any claim.) -/
def ratStr (q : ℚ) : String :=
  if q.den = 1 then toString q.num ++ ".0" else toString q

mutual
/-- Python `repr` for our value model. -/
def pyRepr : PyVal → String
  | .none => "None"
  | .bool b => if b then "True" else "False"
  | .int n => toString n
  | .float q => ratStr q
  | .str s => "\x27" ++ s ++ "\x27"
  | .list xs => "[" ++ pyReprList xs ++ "]"
  | .dict kvs => "\x7b" ++ pyReprDict kvs ++ "\x7d"

/-- Comma-separated reprs of list elements. -/
def pyReprList : List PyVal → String
  | [] => ""
  | [x] => pyRepr x
  | x :: y :: xs => pyRepr x ++ ", " ++ pyReprList (y :: xs)

/-- Comma-separated reprs of dict entries. -/
def pyReprDict : List (PyVal × PyVal) → String
  | [] => ""
  | [(k, v)] => pyRepr k ++ ": " ++ pyRepr v
  | (k, v) :: p :: ps => pyRepr k ++ ": " ++ pyRepr v ++ ", " ++ pyReprDict (p :: ps)
end

/-- Python `str(v)`: identity on strings, `repr` otherwise (for the types
in our model `str` and `repr` agree on everything but strings). -/
def pyStr : PyVal → String
  | .str s => s
  | v => pyRepr v

/-- Whitespace for Python `str.strip()` (the common ASCII whitespace
characters). -/
def wsChar (c : Char) : Bool :=
  c = ' ' || c = '\t' || c = '\n' || c = '\r' || c = '\x0b' || c = '\x0c'

/-- Python `s.strip()`: drop whitespace from both ends. -/
def pyStrip (s : String) : String :=
  String.mk (((s.data.dropWhile wsChar).reverse.dropWhile wsChar).reverse)

/-- Python `s.lower()` (ASCII case mapping; every extension and suffix in
this program is ASCII). -/
def pyLower (s : String) : String :=
  String.mk (s.data.map Char.toLower)

/-- Decimal digit run parsed as a `Nat`; `Option.none` when empty or a
non-digit appears.  (Python also accepts underscores between digits; no
input in this development uses them.) -/
def digitsVal (cs : List Char) : Option Nat :=
  if cs.isEmpty then Option.none
  else if cs.all Char.isDigit then
    some (cs.foldl (fun a c => a * 10 + (c.toNat - 48)) 0)
  else Option.none

/-- Python `int(s)` on a string: strip whitespace, optional sign, decimal
digits; `Option.none` models the `ValueError`. -/
def parseIntString (s : String) : Option Int :=
  match (pyStrip s).data with
  | '+' :: cs => (digitsVal cs).map Int.ofNat
  | '-' :: cs => (digitsVal cs).map (fun n => -(Int.ofNat n))
  | cs => (digitsVal cs).map Int.ofNat

/-- Python `int(v)`: ints pass through, bools map to 0/1, floats truncate
toward zero, strings parse as decimal integers (`ValueError` otherwise),
and every other type raises `TypeError`. -/
def pyInt : PyVal → Except String Int
  | .bool b => .ok (if b then 1 else 0)
  | .int n => .ok n
  | .float q => .ok (if 0 ≤ q then ⌊q⌋ else ⌈q⌉)
  | .str s =>
    match parseIntString s with
    | some n => .ok n
    | Option.none => .error "ValueError: invalid literal for int"
  | _ => .error "TypeError: int argument"

/-- Iterating a Python value (`for it in items`): lists yield elements,
strings yield one-character strings, dicts yield their keys; other types
raise `TypeError`. -/
def pyIter : PyVal → Except String (List PyVal)
  | .list xs => .ok xs
  | .str s => .ok (s.data.map (fun c => .str (String.singleton c)))
  | .dict kvs => .ok (kvs.map Prod.fst)
  | _ => .error "TypeError: not iterable"

/-- A normalized line item, `{"product": ..., "price": ..., "qty": ...}`
as built by `parse_invoices_from_data`. -/
structure LineItem where
  product : PyVal
  price : PyVal
  qty : PyVal

/-- The `invoices` dict: invoice identifier to list of line items,
insertion-ordered as a Python dict. -/
abbrev InvoiceSet := List (PyVal × List LineItem)

/-- The keys of the invoices dict, in insertion order. -/
def invKeys (inv : InvoiceSet) : List PyVal := inv.map Prod.fst

/-- Lookup of an invoice id in the dict. -/
def invLookup : InvoiceSet → PyVal → Option (List LineItem)
  | [], _ => Option.none
  | (k, v) :: rest, key => if pyEq k key then some v else invLookup rest key

/-- `invoices[key] = items`: overwrite in place when the key exists
(keeping the original key object and its position like a Python dict),
append a new entry otherwise. -/
def invSet : InvoiceSet → PyVal → List LineItem → InvoiceSet
  | [], key, items => [(key, items)]
  | (k, v) :: rest, key, items =>
    if pyEq k key then (k, items) :: rest else (k, v) :: invSet rest key items

/-- JSON branch, line 107-109: one normalized item from an item-like
object: `product = it.get("product", it.get("name", ""))`,
`price = it.get("price", 0)`, `qty = it.get("qty", it.get("quantity", 1))`.
No coercion is applied to any field. -/
def jsonItem (it : PyVal) : Except String LineItem := do
  let name ← pyGet it "name" (.str "")
  let product ← pyGet it "product" name
  let price ← pyGet it "price" (.int 0)
  let quantity ← pyGet it "quantity" (.int 1)
  let qty ← pyGet it "qty" quantity
  .ok ⟨product, price, qty⟩

/-- JSON branch, line 103: `iid = inv.get("invoice_id") or inv.get("id")
or str(len(invoices))`, where `numKeys` is the current number of keys. -/
def jsonDerivedId (numKeys : Nat) (inv : PyVal) : Except String PyVal := do
  let a ← pyGet inv "invoice_id" .none
  let b ← pyGet inv "id" .none
  .ok (pyOr a (pyOr b (.str (toString numKeys))))

/-- The list comprehension of lines 105-112 evaluated left to right over
the item-like objects. -/
def jsonItemsList : List PyVal → Except String (List LineItem)
  | [] => .ok []
  | it :: its => do
    let item ← jsonItem it
    let rest ← jsonItemsList its
    .ok (item :: rest)

/-- JSON branch, lines 104-112: `items = inv.get("items", [inv])`, then the
list comprehension over `items` building normalized line items. -/
def jsonItems (inv : PyVal) : Except String (List LineItem) := do
  let itemsVal ← pyGet inv "items" (.list [inv])
  let itemList ← pyIter itemsVal
  jsonItemsList itemList

/-- One iteration of the JSON loop (lines 102-112) over element `inv`:
derive the id, build the items, then `invoices[iid] = [...]` (which raises
`TypeError` on an unhashable id, after the comprehension has run, exactly
as CPython evaluates the assignment). -/
def jsonStep (invoices : InvoiceSet) (inv : PyVal) : Except String InvoiceSet := do
  let iid ← jsonDerivedId invoices.length inv
  let items ← jsonItems inv
  if hashable iid then
    .ok (invSet invoices iid items)
  else
    .error "TypeError: unhashable type"

/-- The JSON loop over the array elements, threading the invoices dict. -/
def jsonFold (invoices : InvoiceSet) : List PyVal → Except String InvoiceSet
  | [] => .ok invoices
  | e :: es => do
    let invoices' ← jsonStep invoices e
    jsonFold invoices' es

/-- Lines 100-115: the JSON branch of `parse_invoices_from_data`.  A list
root is folded element by element; any non-list root yields the single
synthetic invoice keyed `"default"`. -/
def parseJson (data : PyVal) : Except String InvoiceSet :=
  match data with
  | .list elems => jsonFold [] elems
  | _ => .ok [(.str "default", [⟨.str "-", .int 0, .int 1⟩])]

/-- CSV branch, line 119: `str(row.get("invoice_id") or row.get("id") or "")`
before the `str(...)` is applied. -/
def csvRowId (row : PyVal) : Except String PyVal := do
  let a ← pyGet row "invoice_id" .none
  let b ← pyGet row "id" .none
  .ok (pyOr a (pyOr b (.str "")))

/-- CSV branch, lines 122-126: the normalized item of a kept row:
`product = str(row.get("product", row.get("name", "")))` (a string),
`price = row.get("price", 0)` (passed through verbatim),
`qty = int(row.get("qty", row.get("quantity", 1)))` (an int, fallible). -/
def csvItem (row : PyVal) : Except String LineItem := do
  let nameV ← pyGet row "name" (.str "")
  let productV ← pyGet row "product" nameV
  let price ← pyGet row "price" (.int 0)
  let quantityV ← pyGet row "quantity" (.int 1)
  let qtyV ← pyGet row "qty" quantityV
  let qty ← pyInt qtyV
  .ok ⟨.str (pyStr productV), price, .int qty⟩

/-- One iteration of the CSV loop (lines 118-129): derive the string id,
silently skip the row when it is empty (`continue`), otherwise build the
item and append it to the id's list (`invoices.setdefault`-style lines
127-129). -/
def csvStep (invoices : InvoiceSet) (row : PyVal) : Except String InvoiceSet := do
  let rid ← csvRowId row
  let iid := pyStr rid
  if iid == "" then
    .ok invoices
  else do
    let item ← csvItem row
    .ok (invSet invoices (.str iid) ((invLookup invoices (.str iid)).getD [] ++ [item]))

/-- The CSV loop over the rows, threading the invoices dict. -/
def csvFold (invoices : InvoiceSet) : List PyVal → Except String InvoiceSet
  | [] => .ok invoices
  | r :: rs => do
    let invoices' ← csvStep invoices r
    csvFold invoices' rs

/-- Lines 117-131: the CSV branch of `parse_invoices_from_data`:
`for row in data` (which raises `TypeError` when `data` is not iterable)
with the per-row processing of `csvStep`. -/
def parseCsv (data : PyVal) : Except String InvoiceSet := do
  let rows ← pyIter data
  csvFold [] rows

/-- Lines 92-131, `parse_invoices_from_data(data, file_path)`: dispatch on
`file_path.suffix.lower()`; everything that is not `".json"` takes the CSV
branch.  `sfx` is the file suffix as `Path.suffix` returns it. -/
def parse_invoices_from_data (data : PyVal) (sfx : String) : Except String InvoiceSet :=
  if pyLower sfx == ".json" then parseJson data else parseCsv data

/-! Section: File discovery (lines 52-73) -/

/-- A directory entry as `Path.iterdir` yields it: its name and whether it
is a regular file. -/
structure FsEntry where
  name : String
  isFile : Bool
  deriving DecidableEq

/-- `Path.suffix` of a filename, following CPython: the substring from the
last dot, provided that dot is neither the first nor the last character;
otherwise the empty string. -/
def pathSuffix (name : String) : String :=
  let cs := name.data
  let k := (cs.reverse.takeWhile (fun c => c ≠ '.')).length
  if k = cs.length then ""
  else
    let i := cs.length - 1 - k
    if 0 < i ∧ i < cs.length - 1 then String.mk (cs.drop i) else ""

/-- Insertion into a name-sorted list of entries. -/
def insertByName (e : FsEntry) : List FsEntry → List FsEntry
  | [] => [e]
  | x :: xs => if e.name ≤ x.name then e :: x :: xs else x :: insertByName e xs

/-- `sorted(dir.iterdir())`: the entries sorted ascending by name
(codepoint order on strings, as Python compares the paths). -/
def sortByName (l : List FsEntry) : List FsEntry := l.foldr insertByName []

/-- The loop body of `get_data_files` (lines 58-62): walk the sorted
entries, appending regular files with suffix `.csv` (case-insensitive) to
the first list and `.json` to the second. -/
def dataFilesLoop : List FsEntry → List FsEntry × List FsEntry
  | [] => ([], [])
  | f :: fs =>
    let (cs, js) := dataFilesLoop fs
    if f.isFile && (pyLower (pathSuffix f.name) == ".csv") then (f :: cs, js)
    else if f.isFile && (pyLower (pathSuffix f.name) == ".json") then (cs, f :: js)
    else (cs, js)

/-- Lines 52-63, `get_data_files()`: a missing data directory (modelled as
`Option.none`) yields two empty lists; otherwise the sorted entries are
split into CSV and JSON files. -/
def get_data_files (dataDir : Option (List FsEntry)) : List FsEntry × List FsEntry :=
  match dataDir with
  | Option.none => ([], [])
  | some entries => dataFilesLoop (sortByName entries)

/-- Lines 66-73, `get_templates()`: a missing templates directory yields
an empty list; otherwise the regular files with suffix `.html`
(case-insensitive), sorted by name. -/
def get_templates (tmplDir : Option (List FsEntry)) : List FsEntry :=
  match tmplDir with
  | Option.none => []
  | some entries =>
    (sortByName entries).filter
      (fun f => f.isFile && (pyLower (pathSuffix f.name) == ".html"))

/-- Line 194: `data_files = csv_files + json_files`. -/
def mainDataFiles (dataDir : Option (List FsEntry)) : List FsEntry :=
  (get_data_files dataDir).1 ++ (get_data_files dataDir).2

/-! Section: Output name sanitization (lines 251-252) -/

/-- One character of the sanitizer generator: kept when alphanumeric or in
`"-_"`, replaced by `"_"` otherwise.  (`isalnum` is modelled by
`Char.isAlphanum`; every id appearing in a claim is ASCII.) -/
def sanitizeChar (c : Char) : String :=
  if c.isAlphanum || c == '-' || c == '_' then String.singleton c else "_"

/-- Line 251: `safe_id = "".join(c if c.isalnum() or c in "-_" else "_"
for c in invoice_id)`. -/
def safe_id (invoiceId : String) : String :=
  String.join (invoiceId.data.map sanitizeChar)

/-- Line 252 without the directory: the output file is
`invoice_<safe_id>.pdf`. -/
def output_filename (invoiceId : String) : String :=
  "invoice_" ++ safe_id invoiceId ++ ".pdf"

/-- Line 252 with the directory: `OUTPUT_DIR / f"invoice_{safe_id}.pdf"`. -/
def output_path (invoiceId : String) : String :=
  "output/" ++ output_filename invoiceId

/-! Section: Menu selection (lines 177-187) -/

/-- The validity test of one user entry inside the loop body:
`n = int(s.strip())` must succeed with `1 <= n <= max_num`, and the loop
then returns the 0-based `n - 1`. -/
def validEntry (maxNum : Nat) (s : String) : Option Nat :=
  match parseIntString (pyStrip s) with
  | some n => if 1 ≤ n ∧ n ≤ (maxNum : Int) then some (n - 1).toNat else Option.none
  | Option.none => Option.none

/-- Lines 177-187, `select_option(prompt, max_num)`, with the stream of
user entries made explicit: each entry is stripped and parsed; an
in-range integer `n` returns index `n - 1`, anything else re-prompts.
An exhausted entry stream (`Option.none`) models the loop never
returning. -/
def select_option (maxNum : Nat) : List String → Option Nat
  | [] => Option.none
  | s :: rest =>
    match validEntry maxNum s with
    | some i => some i
    | Option.none => select_option maxNum rest

/-- `select_option` together with the entries it has not consumed, used by
the `main` model to thread the input stream through successive prompts. -/
def selectRun (maxNum : Nat) : List String → Option (Nat × List String)
  | [] => Option.none
  | s :: rest =>
    match validEntry maxNum s with
    | some i => some (i, rest)
    | Option.none => selectRun maxNum rest

/-! Section: The main flow (lines 190-257) -/

/-- Insertion into a sorted list of strings. -/
def insertStr (s : String) : List String → List String
  | [] => [s]
  | x :: xs => if s ≤ x then s :: x :: xs else x :: insertStr s xs

/-- Sorting a list of strings ascending (Python `sorted` on strings). -/
def sortStrings (l : List String) : List String := l.foldr insertStr []

/-- Line 239, `sorted(invoices.keys())`.  String keys sort fine; any
non-string key makes Python's `sorted` raise `TypeError` unless all keys
happen to be mutually comparable (we model the all-string case, the only
one any claim exercises, and treat the rest as the propagated error). -/
def sortKeys (ks : List PyVal) : Except String (List String) :=
  match ks.mapM (fun k => match k with | .str s => some s | _ => Option.none) with
  | some ss => .ok (sortStrings ss)
  | Option.none => .error "TypeError: keys not comparable"

/-- The environment `main` runs against: the two directory listings, the
Data Loader as an oracle from file name to parsed value (the CSV/JSON
libraries are external collaborators), the Template Renderer plus PDF
Emitter as an oracle (template name, invoice id, items), and the stream
of user entries. -/
structure Env where
  dataDir : Option (List FsEntry)
  tmplDir : Option (List FsEntry)
  load : String → Except String PyVal
  renderEmit : String → String → List LineItem → Except String Unit
  inputs : List String

/-- Outcome of a run of `main`: the three `sys.exit(1)` sites, normal
completion (exit code 0) carrying the output path, an exhausted input
stream (the unbounded re-prompt loop never returning), or an uncaught
exception propagating out of `main` (CPython then terminates with a
traceback; that interpreter-level exit is outside the program model). -/
inductive MainResult where
  | exitNoData : MainResult
  | exitNoTemplates : MainResult
  | exitNoInvoices : MainResult
  | success : String → MainResult
  | blocked : MainResult
  | uncaught : String → MainResult
  deriving DecidableEq

/-- The exit code a `MainResult` stands for: `1` at the `sys.exit(1)`
sites, `0` on completion, undefined for the modelled non-termination and
for uncaught exceptions. -/
def exitCode : MainResult → Option Nat
  | .exitNoData => some 1
  | .exitNoTemplates => some 1
  | .exitNoInvoices => some 1
  | .success _ => some 0
  | .blocked => Option.none
  | .uncaught _ => Option.none

/-- Lines 238-257 of `main()`: sort the invoice ids, prompt for one,
render and emit, producing `output/invoice_<safe_id>.pdf`. -/
def mainRender (env : Env) (tmplPath : FsEntry) (invoices : InvoiceSet)
    (inputs2 : List String) : MainResult :=
  match sortKeys (invKeys invoices) with
  | .error e => .uncaught e
  | .ok invIds =>
    match selectRun invIds.length inputs2 with
    | Option.none => .blocked
    | some (idxInv, _) =>
      let invoiceId := invIds.getD idxInv ""
      let items := (invLookup invoices (.str invoiceId)).getD []
      match env.renderEmit tmplPath.name invoiceId items with
      | .error e => .uncaught e
      | .ok _ => .success (output_path invoiceId)

/-- Lines 226-236 of `main()`: load the selected file, normalize it, and
`sys.exit(1)` when the resulting `InvoiceSet` is empty. -/
def mainLoadStage (env : Env) (dataPath tmplPath : FsEntry)
    (inputs2 : List String) : MainResult :=
  match env.load dataPath.name with
  | .error e => .uncaught e
  | .ok raw =>
    match parse_invoices_from_data raw (pathSuffix dataPath.name) with
    | .error e => .uncaught e
    | .ok invoices =>
      if invoices.isEmpty then .exitNoInvoices
      else mainRender env tmplPath invoices inputs2

/-- Lines 190-257, `main()`: discovery, the two emptiness checks with
`sys.exit(1)` before any prompt, the two selection prompts, then the
load/normalize and render stages. -/
def main_run (env : Env) : MainResult :=
  let dataFiles := mainDataFiles env.dataDir
  let templates := get_templates env.tmplDir
  if dataFiles.isEmpty then .exitNoData
  else if templates.isEmpty then .exitNoTemplates
  else
    match selectRun dataFiles.length env.inputs with
    | Option.none => .blocked
    | some (idxData, inputs1) =>
      match selectRun templates.length inputs1 with
      | Option.none => .blocked
      | some (idxTpl, inputs2) =>
        mainLoadStage env (dataFiles.getD idxData ⟨"", false⟩)
          (templates.getD idxTpl ⟨"", false⟩) inputs2

/-! Section: Spec-side and proof-side definitions -/

/-- Normal form of a hashable key under Python equality: all numeric
values (bools included) collapse to their rational value; strings and
`None` stand alone; unhashable values are `other`. -/
inductive KeyRep where
  | num : ℚ → KeyRep
  | strK : String → KeyRep
  | noneK : KeyRep
  | other : KeyRep
  deriving DecidableEq

/-- The normal form of a value as a dict key. -/
def keyRep : PyVal → KeyRep
  | .none => .noneK
  | .bool b => .num (if b then 1 else 0)
  | .int n => .num (n : ℚ)
  | .float q => .num q
  | .str s => .strK s
  | .list _ => .other
  | .dict _ => .other

/-- Whether a value is built with the `int` constructor. -/
def isIntVal : PyVal → Bool
  | .int _ => true
  | _ => false

/-- Whether a value is built with the `str` constructor. -/
def isStrVal : PyVal → Bool
  | .str _ => true
  | _ => false

/-- Whether a value is a Python list (`isinstance(data, list)`). -/
def isListVal : PyVal → Bool
  | .list _ => true
  | _ => false

/-- The derived string id of a CSV row as the claims describe it
(`Option.none` when the row is not a dict and `.get` would raise). -/
def rowKey (r : PyVal) : Option String :=
  match csvRowId r with
  | .ok v => some (pyStr v)
  | .error _ => Option.none

/-- The non-blank derived ids of a CSV record sequence, in file order
(spec: rows with a blank derived id are excluded, all others keyed by
their derived id). -/
def csvSpecKeys (rows : List PyVal) : List String :=
  (rows.filterMap rowKey).filter (fun s => s ≠ "")

/-- The rows of a CSV record sequence whose derived id is `key`, in file
order. -/
def matchedRows (rows : List PyVal) (key : String) : List PyVal :=
  rows.filter (fun r => rowKey r == some key)

/-- The per-character sanitization map the spec describes: keep
alphanumerics, `-` and `_`, replace everything else with `_`. -/
def sanChar (c : Char) : Char :=
  if c.isAlphanum || c == '-' || c == '_' then c else '_'

/-- The normalized items of a sequence of CSV rows, one per row, in file
order (fails where `csvItem` fails on some row). -/
def csvItemsOf : List PyVal → Except String (List LineItem)
  | [] => .ok []
  | r :: rs => do
    let item ← csvItem r
    let rest ← csvItemsOf rs
    .ok (item :: rest)

/-- The invariant every entry built by the CSV branch satisfies: the key
is a non-empty string, the item list is non-empty, and every item has an
`int` qty and a `str` product. -/
def GoodEntry (p : PyVal × List LineItem) : Prop :=
  (∃ s, p.1 = .str s ∧ s ≠ "") ∧ p.2 ≠ [] ∧
    ∀ item ∈ p.2, (∃ n, item.qty = .int n) ∧ (∃ s, item.product = .str s)

/-! Section: Helper lemmas about key equality and the invoices dict -/

@[simp]
theorem except_bind_ok {α β : Type} (a : α) (f : α → Except String β) :
    (Except.ok a >>= f) = f a := rfl

@[simp]
theorem except_bind_error {α β : Type} (e : String) (f : α → Except String β) :
    ((Except.error e : Except String α) >>= f) = Except.error e := rfl

theorem hashable_iff_keyRep (a : PyVal) : hashable a = true ↔ keyRep a ≠ .other := by
  cases a <;> simp [hashable, keyRep]

theorem pyEq_eq_true_iff (a b : PyVal) :
    pyEq a b = true ↔ (keyRep a = keyRep b ∧ hashable a = true) := by
  cases a <;> cases b <;>
    first
      | (simp [pyEq, keyRep, hashable, Int.cast_inj]
         done)
      | (rename_i x y
         cases x <;> cases y <;> simp [pyEq, keyRep, hashable]
         done)
      | (rename_i x y
         cases x <;> simp [pyEq, keyRep, hashable] <;>
           constructor <;> intro h <;> exact_mod_cast h
         done)
      | (rename_i x y
         cases y <;> simp [pyEq, keyRep, hashable] <;>
           constructor <;> intro h <;> exact_mod_cast h
         done)

theorem pyEq_refl_of_hashable {a : PyVal} (h : hashable a = true) : pyEq a a = true := by
  rw [pyEq_eq_true_iff]; exact ⟨rfl, h⟩

theorem hashable_of_pyEq {a b : PyVal} (h : pyEq a b = true) : hashable a = true :=
  ((pyEq_eq_true_iff a b).mp h).2

theorem pyEq_str_iff (k : PyVal) (s : String) : pyEq k (.str s) = true ↔ k = .str s := by
  cases k <;> simp [pyEq_eq_true_iff, keyRep, hashable]

/-- Lookup after `invoices[k] = v`: the new value under any key Python
considers equal to `k`, the old lookup elsewhere. -/
theorem invLookup_invSet (inv : InvoiceSet) (k : PyVal) (v : List LineItem) (key : PyVal) :
    invLookup (invSet inv k v) key = if pyEq k key then some v else invLookup inv key := by
  induction inv with
  | nil => simp [invSet, invLookup]
  | cons hd tl ih =>
    obtain ⟨k', v'⟩ := hd
    by_cases h1 : pyEq k' k = true
    · have hrep := (pyEq_eq_true_iff k' k).mp h1
      by_cases h2 : pyEq k key = true
      · have hrep2 := (pyEq_eq_true_iff k key).mp h2
        have h3 : pyEq k' key = true := by
          rw [pyEq_eq_true_iff]; exact ⟨hrep.1.trans hrep2.1, hrep.2⟩
        simp [invSet, invLookup, h1, h2, h3]
      · have h3 : pyEq k' key = false := by
          apply Bool.eq_false_iff.mpr
          intro hx
          have hrepx := (pyEq_eq_true_iff k' key).mp hx
          have hk : hashable k = true := by
            rw [hashable_iff_keyRep]
            rw [← hrep.1]
            exact (hashable_iff_keyRep k').mp hrep.2
          exact h2 ((pyEq_eq_true_iff k key).mpr ⟨hrep.1.symm.trans hrepx.1, hk⟩)
        simp [invSet, invLookup, h1, h2, h3]
    · by_cases h3 : pyEq k' key = true
      · have h2 : pyEq k key = false := by
          apply Bool.eq_false_iff.mpr
          intro hx
          have hrepx := (pyEq_eq_true_iff k key).mp hx
          have hrep3 := (pyEq_eq_true_iff k' key).mp h3
          exact h1 ((pyEq_eq_true_iff k' k).mpr ⟨hrep3.1.trans hrepx.1.symm, hrep3.2⟩)
        simp [invSet, invLookup, h1, h2, h3]
      · simp [invSet, invLookup, h1, h3, ih]

/-- `invoices[k] = v` keeps the key list when `k` is already a key and
appends `k` otherwise. -/
theorem invKeys_invSet (inv : InvoiceSet) (k : PyVal) (v : List LineItem) :
    invKeys (invSet inv k v) =
      if (invLookup inv k).isSome then invKeys inv else invKeys inv ++ [k] := by
  induction inv with
  | nil => simp [invSet, invLookup, invKeys]
  | cons hd tl ih =>
    obtain ⟨k', v'⟩ := hd
    by_cases h1 : pyEq k' k = true
    · simp [invSet, invLookup, invKeys, h1]
    · have hset : invSet ((k', v') :: tl) k v = (k', v') :: invSet tl k v := by
        simp [invSet, h1]
      have hlk : invLookup ((k', v') :: tl) k = invLookup tl k := by
        simp [invLookup, h1]
      rw [hset, hlk]
      have hk : invKeys ((k', v') :: invSet tl k v) = k' :: invKeys (invSet tl k v) := rfl
      have hk2 : invKeys ((k', v') :: tl) = k' :: invKeys tl := rfl
      rw [hk, hk2, ih]
      by_cases h2 : (invLookup tl k).isSome <;> simp [h2]

/-- Size of the dict after `invoices[k] = v`. -/
theorem invSet_length (inv : InvoiceSet) (k : PyVal) (v : List LineItem) :
    (invSet inv k v).length =
      if (invLookup inv k).isSome then inv.length else inv.length + 1 := by
  have h := invKeys_invSet inv k v
  have h1 : (invSet inv k v).length = (invKeys (invSet inv k v)).length := by
    simp [invKeys]
  have h2 : inv.length = (invKeys inv).length := by simp [invKeys]
  rw [h1, h, h2]
  by_cases hs : (invLookup inv k).isSome <;> simp [hs]

/-- Every value stored after `invoices[k] = v` is either `v` or was
already stored. -/
theorem mem_invSet (inv : InvoiceSet) (k : PyVal) (v : List LineItem) :
    ∀ p ∈ invSet inv k v, p.2 = v ∨ p ∈ inv := by
  induction inv with
  | nil => intro p hp; simp [invSet] at hp; simp [hp]
  | cons hd tl ih =>
    obtain ⟨k', v'⟩ := hd
    intro p hp
    by_cases h1 : pyEq k' k = true
    · simp [invSet, h1] at hp
      rcases hp with h | h
      · left; rw [h]
      · right; simp [h]
    · simp [invSet, h1] at hp
      rcases hp with h | h
      · right; simp [h]
      · rcases ih p h with h2 | h2
        · left; exact h2
        · right; simp [h2]

/-- Every key after `invoices[k] = v` is `k` or an old key. -/
theorem mem_invKeys_invSet (inv : InvoiceSet) (k : PyVal) (v : List LineItem) :
    ∀ key ∈ invKeys (invSet inv k v), key = k ∨ key ∈ invKeys inv := by
  intro key hkey
  rw [invKeys_invSet] at hkey
  by_cases hs : (invLookup inv k).isSome
  · simp [hs] at hkey; right; exact hkey
  · simp [hs] at hkey
    rcases hkey with h | h
    · right; exact h
    · left; exact h

/-- A string-keyed lookup succeeds exactly when the string is among the
keys (Python equality only matches a string key against an equal string). -/
theorem invLookup_str_isSome_iff (inv : InvoiceSet) (s : String) :
    (invLookup inv (.str s)).isSome ↔ .str s ∈ invKeys inv := by
  induction inv with
  | nil => simp [invLookup, invKeys]
  | cons hd tl ih =>
    obtain ⟨k', v'⟩ := hd
    by_cases h1 : pyEq k' (.str s) = true
    · have he : k' = .str s := (pyEq_str_iff k' s).mp h1
      subst he
      simp [invLookup, invKeys, pyEq]
    · have hne : k' ≠ .str s := fun hc => h1 ((pyEq_str_iff k' s).mpr hc)
      have hne2 : PyVal.str s ≠ k' := fun hc => hne hc.symm
      simp [invLookup, invKeys, h1, hne2, ih]

/-! Section: Decimal rendering of a `Nat` is never empty -/

theorem toDigitsCore_ne_nil (b : Nat) :
    ∀ (fuel n : Nat) (ds : List Char), ds ≠ [] → Nat.toDigitsCore b fuel n ds ≠ [] := by
  intro fuel
  induction fuel with
  | zero => intro n ds h; simpa [Nat.toDigitsCore] using h
  | succ fuel ih =>
    intro n ds h
    simp only [Nat.toDigitsCore]
    split
    · simp
    · exact ih _ _ (by simp)

theorem natToString_ne_empty (n : Nat) : toString n ≠ "" := by
  show Nat.repr n ≠ ""
  unfold Nat.repr
  intro hcon
  have h1 : Nat.toDigits 10 n ≠ [] := by
    unfold Nat.toDigits
    simp only [Nat.toDigitsCore]
    split
    · simp
    · exact toDigitsCore_ne_nil 10 _ _ _ (by simp)
  exact h1 (by simpa [List.asString, String.ext_iff] using hcon)

/-- `select_option` is `selectRun` without the leftover entries. -/
theorem select_option_eq_selectRun (maxNum : Nat) (entries : List String) :
    select_option maxNum entries = (selectRun maxNum entries).map Prod.fst := by
  induction entries with
  | nil => rfl
  | cons s rest ih =>
    simp only [select_option, selectRun]
    cases validEntry maxNum s <;> simp [ih]

/-! Section: Invariants of the JSON branch -/

theorem truthy_pyOr_right {a c : PyVal} (hc : truthy c = true) : truthy (pyOr a c) = true := by
  by_cases ha : truthy a = true <;> simp [pyOr, ha, hc]

theorem truthy_str_toString (n : Nat) : truthy (.str (toString n)) = true := by
  simp only [truthy, bne_iff_ne, ne_eq]
  exact natToString_ne_empty n

/-- The id assigned to a JSON element is always truthy: the `or` chain
returns the first truthy field, and its last member `str(len(invoices))`
is a non-empty decimal string. -/
theorem jsonDerivedId_truthy {numKeys : Nat} {inv iid : PyVal}
    (h : jsonDerivedId numKeys inv = .ok iid) : truthy iid = true := by
  cases inv <;> simp [jsonDerivedId, pyGet, Except.bind] at h <;>
    try (rw [← h]; exact truthy_pyOr_right (truthy_pyOr_right (truthy_str_toString numKeys)))

/-- One JSON loop iteration in terms of its pieces: the assigned id, the
items, the dict update, the new lookup, and the key-count change. -/
theorem jsonStep_char {invoices : InvoiceSet} {inv : PyVal} {res : InvoiceSet}
    (h : jsonStep invoices inv = .ok res) :
    ∃ iid items, jsonDerivedId invoices.length inv = .ok iid ∧
      jsonItems inv = .ok items ∧
      hashable iid = true ∧
      res = invSet invoices iid items ∧
      invLookup res iid = some items ∧
      res.length = (if (invLookup invoices iid).isSome then invoices.length
                    else invoices.length + 1) := by
  unfold jsonStep at h
  cases hid : jsonDerivedId invoices.length inv with
  | error e => rw [hid] at h; exact absurd h (by simp [Except.bind])
  | ok iid =>
    rw [hid] at h
    cases hit : jsonItems inv with
    | error e => rw [hit] at h; exact absurd h (by simp [Except.bind])
    | ok items =>
      rw [hit] at h
      simp only [except_bind_ok] at h
      by_cases hh : hashable iid = true
      · rw [if_pos hh] at h
        cases h
        refine ⟨iid, items, rfl, rfl, hh, rfl, ?_, invSet_length invoices iid items⟩
        rw [invLookup_invSet]
        simp [pyEq_refl_of_hashable hh]
      · rw [if_neg hh] at h
        exact absurd h (by simp)

/-- Folding the JSON elements preserves any property of the keys that
every assigned id satisfies. -/
theorem jsonFold_keys_pred (P : PyVal → Prop)
    (hP : ∀ (numKeys : Nat) (inv iid : PyVal), jsonDerivedId numKeys inv = .ok iid → P iid) :
    ∀ (elems : List PyVal) (acc res : InvoiceSet), jsonFold acc elems = .ok res →
      (∀ k ∈ invKeys acc, P k) → ∀ k ∈ invKeys res, P k := by
  intro elems
  induction elems with
  | nil =>
    intro acc res h hacc
    simp [jsonFold] at h
    rw [← h]; exact hacc
  | cons e es ih =>
    intro acc res h hacc
    unfold jsonFold at h
    cases hstep : jsonStep acc e with
    | error msg => rw [hstep] at h; exact absurd h (by simp [Except.bind])
    | ok acc' =>
      rw [hstep] at h
      simp only [except_bind_ok] at h
      obtain ⟨iid, items, hid, _, _, heq, _, _⟩ := jsonStep_char hstep
      refine ih acc' res h ?_
      intro k hk
      have hk2 : k ∈ invKeys (invSet acc iid items) := heq ▸ hk
      rcases mem_invKeys_invSet acc iid items k hk2 with h1 | h1
      · exact h1 ▸ hP acc.length e iid hid
      · exact hacc k h1

/-- Folding the JSON elements grows the dict by at most one key per
element. -/
theorem jsonFold_length :
    ∀ (elems : List PyVal) (acc res : InvoiceSet), jsonFold acc elems = .ok res →
      res.length ≤ acc.length + elems.length := by
  intro elems
  induction elems with
  | nil =>
    intro acc res h
    simp [jsonFold] at h
    simp [← h]
  | cons e es ih =>
    intro acc res h
    unfold jsonFold at h
    cases hstep : jsonStep acc e with
    | error msg => rw [hstep] at h; exact absurd h (by simp [Except.bind])
    | ok acc' =>
      rw [hstep] at h
      simp only [except_bind_ok] at h
      obtain ⟨iid, items, _, _, _, _, _, hlen⟩ := jsonStep_char hstep
      have h1 := ih acc' res h
      have h2 : (e :: es).length = es.length + 1 := rfl
      by_cases hs : (invLookup acc iid).isSome = true
      · rw [if_pos hs] at hlen; omega
      · rw [if_neg hs] at hlen; omega

/-! Section: Invariants of the CSV branch -/

/-- One CSV loop iteration in terms of its pieces: blank-id rows are
skipped leaving the dict unchanged, all others append their item to the
list under their derived string id. -/
theorem csvStep_char {acc : InvoiceSet} {r : PyVal} {res : InvoiceSet}
    (h : csvStep acc r = .ok res) :
    ∃ rid, csvRowId r = .ok rid ∧
      ((pyStr rid = "" ∧ res = acc) ∨
       (pyStr rid ≠ "" ∧ ∃ item, csvItem r = .ok item ∧
          res = invSet acc (.str (pyStr rid))
            ((invLookup acc (.str (pyStr rid))).getD [] ++ [item]))) := by
  unfold csvStep at h
  cases hid : csvRowId r with
  | error e => rw [hid] at h; exact absurd h (by simp)
  | ok rid =>
    rw [hid] at h
    simp only [except_bind_ok] at h
    by_cases hb : pyStr rid = ""
    · rw [if_pos (by simp [hb])] at h
      cases h
      exact ⟨rid, rfl, Or.inl ⟨hb, rfl⟩⟩
    · rw [if_neg (by simp [hb])] at h
      cases hitem : csvItem r with
      | error e => rw [hitem] at h; exact absurd h (by simp)
      | ok item =>
        rw [hitem] at h
        simp only [except_bind_ok] at h
        cases h
        exact ⟨rid, rfl, Or.inr ⟨hb, item, rfl, rfl⟩⟩

/-- A successful lookup returns a value stored in the dict. -/
theorem invLookup_mem {inv : InvoiceSet} {k : PyVal} {v : List LineItem}
    (h : invLookup inv k = some v) : ∃ k2, (k2, v) ∈ inv := by
  induction inv with
  | nil => simp [invLookup] at h
  | cons hd tl ih =>
    obtain ⟨k2, v2⟩ := hd
    by_cases h1 : pyEq k2 k = true
    · simp [invLookup, h1] at h
      exact ⟨k2, by simp [h]⟩
    · simp [invLookup, h1] at h
      obtain ⟨k3, hk3⟩ := ih h
      exact ⟨k3, by simp [hk3]⟩

/-- A member of `invoices[k] = v` is an old entry, the new entry, or an
old key now carrying the new value. -/
theorem mem_invSet_cases (inv : InvoiceSet) (k : PyVal) (v : List LineItem) :
    ∀ p ∈ invSet inv k v,
      p ∈ inv ∨ p = (k, v) ∨ (p.2 = v ∧ ∃ v2, (p.1, v2) ∈ inv) := by
  induction inv with
  | nil =>
    intro p hp
    simp [invSet] at hp
    exact Or.inr (Or.inl hp)
  | cons hd tl ih =>
    obtain ⟨k2, v2⟩ := hd
    intro p hp
    by_cases h1 : pyEq k2 k = true
    · simp [invSet, h1] at hp
      rcases hp with h | h
      · exact Or.inr (Or.inr ⟨by simp [h], v2, by simp [h]⟩)
      · exact Or.inl (by simp [h])
    · simp [invSet, h1] at hp
      rcases hp with h | h
      · exact Or.inl (by simp [h])
      · rcases ih p h with h2 | h2 | h2
        · exact Or.inl (by simp [h2])
        · exact Or.inr (Or.inl h2)
        · exact Or.inr (Or.inr ⟨h2.1, h2.2.elim (fun v3 hv3 => ⟨v3, by simp [hv3]⟩)⟩)

/-- The item built from a kept CSV row always has an `int` qty and a
`str` product. -/
theorem csvItem_shape {r : PyVal} {item : LineItem} (h : csvItem r = .ok item) :
    (∃ n, item.qty = .int n) ∧ (∃ s, item.product = .str s) := by
  cases r with
  | dict kvs =>
    unfold csvItem at h
    simp only [pyGet, except_bind_ok] at h
    cases hq : pyInt ((dictLookup kvs (.str "qty")).getD
        ((dictLookup kvs (.str "quantity")).getD (.int 1))) with
    | error e => rw [hq] at h; exact absurd h (by simp)
    | ok n =>
      rw [hq] at h
      simp only [except_bind_ok] at h
      cases h
      exact ⟨⟨n, rfl⟩, ⟨_, rfl⟩⟩
  | none => simp [csvItem, pyGet] at h
  | bool b => simp [csvItem, pyGet] at h
  | int n => simp [csvItem, pyGet] at h
  | float q => simp [csvItem, pyGet] at h
  | str s => simp [csvItem, pyGet] at h
  | list xs => simp [csvItem, pyGet] at h

/-- One CSV iteration preserves the entry invariant. -/
theorem csvStep_good {acc : InvoiceSet} {r : PyVal} {res : InvoiceSet}
    (h : csvStep acc r = .ok res) (hacc : ∀ p ∈ acc, GoodEntry p) :
    ∀ p ∈ res, GoodEntry p := by
  obtain ⟨rid, _, hcase⟩ := csvStep_char h
  rcases hcase with ⟨_, rfl⟩ | ⟨hnb, item, hitem, rfl⟩
  · exact hacc
  · intro p hp
    have hnewv : ∀ it ∈ (invLookup acc (.str (pyStr rid))).getD [] ++ [item],
        (∃ n, it.qty = .int n) ∧ (∃ s, it.product = .str s) := by
      intro it hit
      rcases List.mem_append.mp hit with h1 | h1
      · cases hs : invLookup acc (.str (pyStr rid)) with
        | none => rw [hs] at h1; simp at h1
        | some old =>
          rw [hs] at h1
          obtain ⟨k2, hk2⟩ := invLookup_mem hs
          exact (hacc (k2, old) hk2).2.2 it h1
      · simp at h1
        exact h1 ▸ csvItem_shape hitem
    rcases mem_invSet_cases _ _ _ p hp with h1 | h1 | h1
    · exact hacc p h1
    · refine ⟨⟨pyStr rid, by simp [h1], hnb⟩, by simp [h1], ?_⟩
      intro it hit
      exact hnewv it (by rw [h1] at hit; simpa using hit)
    · obtain ⟨hp2, v2, hv2⟩ := h1
      refine ⟨(hacc (p.1, v2) hv2).1, ?_, ?_⟩
      · rw [hp2]; simp
      · intro it hit
        exact hnewv it (hp2 ▸ hit)

/-- Folding the CSV rows preserves the entry invariant. -/
theorem csvFold_good :
    ∀ (rows : List PyVal) (acc inv : InvoiceSet), csvFold acc rows = .ok inv →
      (∀ p ∈ acc, GoodEntry p) → ∀ p ∈ inv, GoodEntry p := by
  intro rows
  induction rows with
  | nil =>
    intro acc inv h hacc
    simp [csvFold] at h
    exact h ▸ hacc
  | cons r rs ih =>
    intro acc inv h hacc
    unfold csvFold at h
    cases hstep : csvStep acc r with
    | error e => rw [hstep] at h; exact absurd h (by simp)
    | ok acc2 =>
      rw [hstep] at h
      simp only [except_bind_ok] at h
      exact ih acc2 inv h (csvStep_good hstep hacc)

/-- Master characterization of the CSV fold: for every non-blank id
`key`, the final lookup extends the initial one with exactly the items of
the rows whose derived id is `key`, in file order. -/
theorem csvFold_lookup :
    ∀ (rows : List PyVal) (acc inv : InvoiceSet), csvFold acc rows = .ok inv →
      ∀ key : String, key ≠ "" →
        ∃ more, csvItemsOf (matchedRows rows key) = .ok more ∧
          invLookup inv (.str key) =
            (if ((invLookup acc (.str key)).isSome || !more.isEmpty) = true
             then some ((invLookup acc (.str key)).getD [] ++ more)
             else Option.none) := by
  intro rows
  induction rows with
  | nil =>
    intro acc inv h key _
    simp [csvFold] at h
    subst h
    refine ⟨[], rfl, ?_⟩
    cases hs : invLookup acc (.str key) with
    | none => simp
    | some v => simp
  | cons r rs ih =>
    intro acc inv h key hk
    unfold csvFold at h
    cases hstep : csvStep acc r with
    | error e => rw [hstep] at h; exact absurd h (by simp)
    | ok acc2 =>
      rw [hstep] at h
      simp only [except_bind_ok] at h
      obtain ⟨rid, hid, hcase⟩ := csvStep_char hstep
      have hrowkey : rowKey r = some (pyStr rid) := by simp [rowKey, hid]
      rcases hcase with ⟨hblank, rfl⟩ | ⟨hnb, item, hitem, heq⟩
      · have hne : (rowKey r == some key) = false := by
          simp [hrowkey, hblank]
          exact fun hc => hk hc.symm
        have hm : matchedRows (r :: rs) key = matchedRows rs key := by
          simp [matchedRows, List.filter_cons, hne]
        rw [hm]
        exact ih _ inv h key hk
      · subst heq
        by_cases hkey : pyStr rid = key
        · have hbeq : (rowKey r == some key) = true := by simp [hrowkey, hkey]
          have hm : matchedRows (r :: rs) key = r :: matchedRows rs key := by
            simp [matchedRows, List.filter_cons, hbeq]
          obtain ⟨more, hmore, hlook⟩ := ih _ inv h key hk
          refine ⟨item :: more, ?_, ?_⟩
          · rw [hm]
            simp [csvItemsOf, hitem, hmore]
          · have hpe : pyEq (.str (pyStr rid)) (.str key) = true := by
              simp [pyEq, hkey]
            have hacc2 : invLookup (invSet acc (.str (pyStr rid))
                  ((invLookup acc (.str (pyStr rid))).getD [] ++ [item])) (.str key)
                = some ((invLookup acc (.str (pyStr rid))).getD [] ++ [item]) := by
              rw [invLookup_invSet]
              simp [hpe]
            rw [hacc2] at hlook
            rw [hlook]
            subst hkey
            simp [List.append_assoc]
        · have hne : (rowKey r == some key) = false := by simp [hrowkey, hkey]
          have hm : matchedRows (r :: rs) key = matchedRows rs key := by
            simp [matchedRows, List.filter_cons, hne]
          obtain ⟨more, hmore, hlook⟩ := ih _ inv h key hk
          refine ⟨more, hm ▸ hmore, ?_⟩
          have hpe : pyEq (.str (pyStr rid)) (.str key) = false := by
            simp [pyEq, hkey]
          have hacc2 : invLookup (invSet acc (.str (pyStr rid))
                ((invLookup acc (.str (pyStr rid))).getD [] ++ [item])) (.str key)
              = invLookup acc (.str key) := by
            rw [invLookup_invSet]
            simp [hpe]
          rw [hacc2] at hlook
          exact hlook

/-- The per-row item list is empty exactly when there are no rows. -/
theorem csvItemsOf_nil_iff {rows : List PyVal} {items : List LineItem}
    (h : csvItemsOf rows = .ok items) : items = [] ↔ rows = [] := by
  cases rows with
  | nil =>
    simp [csvItemsOf] at h
    simp [← h]
  | cons r rs =>
    unfold csvItemsOf at h
    cases h1 : csvItem r with
    | error e => rw [h1] at h; exact absurd h (by simp)
    | ok item =>
      rw [h1] at h
      simp only [except_bind_ok] at h
      cases h2 : csvItemsOf rs with
      | error e => rw [h2] at h; exact absurd h (by simp)
      | ok rest =>
        rw [h2] at h
        simp only [except_bind_ok] at h
        cases h
        simp

/-- The rows matching `key` are non-empty exactly when `key` is a derived
row id. -/
theorem matchedRows_ne_nil_iff (rows : List PyVal) (key : String) :
    matchedRows rows key ≠ [] ↔ key ∈ rows.filterMap rowKey := by
  constructor
  · intro h
    rcases List.exists_mem_of_ne_nil _ h with ⟨r, hr⟩
    rw [matchedRows, List.mem_filter] at hr
    exact List.mem_filterMap.mpr ⟨r, hr.1, by simpa using hr.2⟩
  · intro h hnil
    obtain ⟨r, hr, hkey⟩ := List.mem_filterMap.mp h
    have : r ∈ matchedRows rows key := by
      rw [matchedRows, List.mem_filter]
      exact ⟨hr, by simp [hkey]⟩
    rw [hnil] at this
    simp at this

/-! Section: Claim C7: output file naming -/

theorem safe_id_data (invoiceId : String) :
    (safe_id invoiceId).data = invoiceId.data.map sanChar := by
  rw [safe_id, String.data_join]
  induction invoiceId.data with
  | nil => rfl
  | cons c cs ih =>
    simp only [List.map_cons, List.flatten_cons, ih]
    by_cases hc : (c.isAlphanum || c == '-' || c == '_') = true <;>
      simp [sanitizeChar, sanChar, hc, String.singleton]

/-- Claim C7: for every selected invoice id the output file path is
`output/invoice_<sanitized-id>.pdf`, where the sanitized id replaces every
character that is not alphanumeric, `-` or `_` by `_`; in particular the
id `inv/2024:01` yields `invoice_inv_2024_01.pdf`. -/
theorem claim_C7 :
    (∀ invoiceId : String,
        output_path invoiceId = "output/invoice_" ++ safe_id invoiceId ++ ".pdf") ∧
    (∀ invoiceId : String,
        (safe_id invoiceId).data = invoiceId.data.map sanChar) ∧
    output_filename "inv/2024:01" = "invoice_inv_2024_01.pdf" ∧
    output_path "inv/2024:01" = "output/invoice_inv_2024_01.pdf" := by
  refine ⟨?_, safe_id_data, by rfl, by rfl⟩
  intro invoiceId
  rw [output_path, output_filename]
  rw [← String.append_assoc, ← String.append_assoc]
  rfl

/-- Claim C7 witness: the path characterization applied at a concrete id. -/
theorem claim_C7_witness :
    output_path "a b" = "output/invoice_" ++ safe_id "a b" ++ ".pdf" :=
  claim_C7.1 "a b"

/-! Section: Claim C8: menu selection -/

theorem validEntry_some_iff (maxNum : Nat) (s : String) (i : Nat) :
    validEntry maxNum s = some i ↔
      ∃ n : Int, parseIntString (pyStrip s) = some n ∧ 1 ≤ n ∧ n ≤ (maxNum : Int) ∧
        i = (n - 1).toNat := by
  cases hp : parseIntString (pyStrip s) with
  | none =>
    have hred : validEntry maxNum s = Option.none := by
      unfold validEntry; rw [hp]
    simp [hred, hp]
  | some n =>
    have hred : validEntry maxNum s =
        if 1 ≤ n ∧ n ≤ (maxNum : Int) then some ((n - 1).toNat) else Option.none := by
      unfold validEntry; rw [hp]
    rw [hred]
    by_cases hr : 1 ≤ n ∧ n ≤ (maxNum : Int)
    · rw [if_pos hr]
      constructor
      · intro h
        injection h with h
        exact ⟨n, rfl, hr.1, hr.2, h.symm⟩
      · rintro ⟨m, hm, _, _, h3⟩
        injection hm with hm
        subst hm
        rw [h3]
    · rw [if_neg hr]
      constructor
      · intro h; exact absurd h (by simp)
      · rintro ⟨m, hm, h1, h2, _⟩
        injection hm with hm
        subst hm
        exact absurd ⟨h1, h2⟩ hr

/-- Claim C8: `select_option` returns only when an entry parses as an
integer `n` with `1 <= n <= N`, and then returns the 0-based `n - 1`
(hence an index below `N`); any entry that is non-numeric, `0`, negative
or above `N` just removes itself from the stream (re-prompt), and any
number of such invalid entries may precede the valid one (no maximum
attempt count). -/
theorem claim_C8 :
    (∀ (maxNum : Nat) (entries : List String) (i : Nat),
        select_option maxNum entries = some i →
        ∃ s ∈ entries, ∃ n : Int, parseIntString (pyStrip s) = some n ∧
          1 ≤ n ∧ n ≤ (maxNum : Int) ∧ i = (n - 1).toNat ∧ i < maxNum) ∧
    (∀ (maxNum : Nat) (bad rest : List String),
        (∀ s ∈ bad, validEntry maxNum s = Option.none) →
        select_option maxNum (bad ++ rest) = select_option maxNum rest) ∧
    (∀ (maxNum : Nat) (s : String) (rest : List String) (n : Int),
        parseIntString (pyStrip s) = some n → 1 ≤ n → n ≤ (maxNum : Int) →
        select_option maxNum (s :: rest) = some (n - 1).toNat) := by
  refine ⟨?_, ?_, ?_⟩
  · intro maxNum entries
    induction entries with
    | nil => intro i h; simp [select_option] at h
    | cons s rest ih =>
      intro i h
      unfold select_option at h
      cases hv : validEntry maxNum s with
      | none => rw [hv] at h; obtain ⟨t, ht, hrest⟩ := ih i h; exact ⟨t, by simp [ht], hrest⟩
      | some j =>
        rw [hv] at h
        cases h
        obtain ⟨n, hn, h1, h2, h3⟩ := (validEntry_some_iff maxNum s i).mp hv
        refine ⟨s, by simp, n, hn, h1, h2, h3, ?_⟩
        omega
  · intro maxNum bad rest hbad
    induction bad with
    | nil => rfl
    | cons s bs ih =>
      have hs := hbad s (by simp)
      simp only [List.cons_append, select_option, hs]
      exact ih (fun t ht => hbad t (by simp [ht]))
  · intro maxNum s rest n hp h1 h2
    have hv : validEntry maxNum s = some (n - 1).toNat :=
      (validEntry_some_iff maxNum s _).mpr ⟨n, hp, h1, h2, rfl⟩
    simp [select_option, hv]

/-- Claim C8 witness: one invalid entry is skipped, then entry `" 3 "`
with list length 5 selects index 2. -/
theorem claim_C8_witness : select_option 5 ["abc", " 3 "] = some 2 := by
  have h1 := claim_C8.2.1 5 ["abc"] [" 3 "] (by intro s hs; simp at hs; subst hs; decide)
  have h2 := claim_C8.2.2 5 " 3 " [] 3 (by decide) (by decide) (by decide)
  simpa [h2] using h1

/-! Section: Counterexamples from the normalizer -/

/-- Claim C1 counterexample: in the JSON branch `qty` is not coerced to
an integer: a source item with float qty `5/2` keeps a float qty in the
normalized `InvoiceSet` (while `price` is passed through, as stated). -/
theorem claim_C1_counterexample :
    parse_invoices_from_data
        (.list [.dict [(.str "invoice_id", .str "A"),
            (.str "items", .list [.dict [(.str "qty", .float (5 / 2)),
              (.str "price", .int 3)]])]])
        ".json"
      = .ok [(.str "A", [⟨.str "", .int 3, .float (5 / 2)⟩])] ∧
    isIntVal (.float (5 / 2)) = false := ⟨rfl, rfl⟩

/-- Claim C2 counterexample: a JSON element with an integer `invoice_id`
produces an `InvoiceSet` key that is an int, not a non-empty string. -/
theorem claim_C2_counterexample :
    parse_invoices_from_data
        (.list [.dict [(.str "invoice_id", .int 7), (.str "items", .list [])]])
        ".json"
      = .ok [(.int 7, [])] ∧
    isStrVal (.int 7) = false := ⟨rfl, rfl⟩

/-- Claim C3 counterexample: the synthesized fallback id can collide with
an existing key.  In `[{"invoice_id": "1"}, {}, {}]` the second and third
elements both lack `invoice_id`/`id` and both receive the synthesized id
`str(1) = "1"`, which overwrites the first element's key: the result has
1 key although 2 elements received a synthesized fallback id (so the
claimed count, which includes every such element, is at least 2). -/
theorem claim_C3_counterexample :
    parse_invoices_from_data
        (.list [.dict [(.str "invoice_id", .str "1")], .dict [], .dict []])
        ".json"
      = .ok [(.str "1", [⟨.str "", .int 0, .int 1⟩])] ∧
    jsonDerivedId 1 (.dict []) = .ok (.str "1") ∧
    dictLookup [] (.str "invoice_id") = Option.none ∧
    dictLookup [] (.str "id") = Option.none := ⟨rfl, rfl, rfl, rfl⟩

/-! Section: Claim C5: JSON fallback rules -/

/-- Claim C5: in the JSON branch, a non-sequence root yields the single
invoice keyed `"default"` with the placeholder item; an element's items
come from its `items` field when present, else the element itself is the
single item; and each item's fields fall back `product`/`name`/`""`,
`price`/`0`, `qty`/`quantity`/`1`. -/
theorem claim_C5 :
    (∀ data : PyVal, isListVal data = false →
        parse_invoices_from_data data ".json" =
          .ok [(.str "default", [⟨.str "-", .int 0, .int 1⟩])]) ∧
    (∀ kvs, dictLookup kvs (.str "items") = Option.none →
        jsonItems (.dict kvs) = (jsonItem (.dict kvs)).map (fun it => [it])) ∧
    (∀ kvs v, dictLookup kvs (.str "items") = some v →
        jsonItems (.dict kvs) = pyIter v >>= jsonItemsList) ∧
    (∀ kvs xs, dictLookup kvs (.str "items") = some (.list xs) →
        jsonItems (.dict kvs) = jsonItemsList xs) ∧
    (∀ kvs item, jsonItem (.dict kvs) = .ok item →
        item.product = (dictLookup kvs (.str "product")).getD
          ((dictLookup kvs (.str "name")).getD (.str "")) ∧
        item.price = (dictLookup kvs (.str "price")).getD (.int 0) ∧
        item.qty = (dictLookup kvs (.str "qty")).getD
          ((dictLookup kvs (.str "quantity")).getD (.int 1))) := by
  refine ⟨?_, ?_, ?_, ?_, ?_⟩
  · intro data hdata
    cases data <;> simp [isListVal] at hdata <;>
      rfl
  · intro kvs h
    simp only [jsonItems, pyGet, except_bind_ok, h, Option.getD, pyIter]
    cases hj : jsonItem (.dict kvs) with
    | error e => simp [jsonItemsList, hj, Except.map]
    | ok item => simp [jsonItemsList, hj, Except.map]
  · intro kvs v h
    simp only [jsonItems, pyGet, except_bind_ok, h, Option.getD]
  · intro kvs xs h
    simp only [jsonItems, pyGet, except_bind_ok, h, Option.getD, pyIter]
  · intro kvs item h
    simp only [jsonItem, pyGet, except_bind_ok] at h
    cases h
    exact ⟨rfl, rfl, rfl⟩

/-- Claim C5 witness: the conjuncts applied at concrete inputs. -/
theorem claim_C5_witness :
    parse_invoices_from_data (.dict []) ".json" =
        .ok [(.str "default", [⟨.str "-", .int 0, .int 1⟩])] ∧
    jsonItems (.dict [(.str "x", .int 1)]) =
        (jsonItem (.dict [(.str "x", .int 1)])).map (fun it => [it]) ∧
    jsonItems (.dict [(.str "items", .list [])]) = jsonItemsList [] ∧
    (⟨.str "p", .int 2, .int 1⟩ : LineItem).product =
        (dictLookup [(.str "product", .str "p"), (.str "price", .int 2)]
          (.str "product")).getD ((dictLookup [(.str "product", .str "p"),
            (.str "price", .int 2)] (.str "name")).getD (.str "")) :=
  ⟨claim_C5.1 (.dict []) rfl,
   claim_C5.2.1 [(.str "x", .int 1)] rfl,
   claim_C5.2.2.2.1 [(.str "items", .list [])] [] rfl,
   (claim_C5.2.2.2.2 [(.str "product", .str "p"), (.str "price", .int 2)]
      ⟨.str "p", .int 2, .int 1⟩ rfl).1⟩

/-! Section: Claim C10: CSV invoices are never empty, JSON ones can be -/

/-- Claim C10: in the CSV branch every key of the resulting `InvoiceSet`
carries a non-empty item list (a key is created only when an item is
appended), while the JSON branch can produce an invoice with zero line items
(an element whose `items` field is an empty list). -/
theorem claim_C10 :
    (∀ (data : PyVal) (sfx : String) (inv : InvoiceSet),
        (pyLower sfx == ".json") = false →
        parse_invoices_from_data data sfx = .ok inv →
        ∀ p ∈ inv, p.2 ≠ []) ∧
    parse_invoices_from_data
        (.list [.dict [(.str "invoice_id", .str "A"), (.str "items", .list [])]])
        ".json"
      = .ok [(.str "A", [])] := by
  constructor
  · intro data sfx inv hsfx h p hp
    rw [parse_invoices_from_data, if_neg (by simp [hsfx])] at h
    unfold parseCsv at h
    cases hrows : pyIter data with
    | error e => rw [hrows] at h; exact absurd h (by simp)
    | ok rows =>
      rw [hrows] at h
      simp only [except_bind_ok] at h
      exact (csvFold_good rows [] inv h (by simp) p hp).2.1
  · rfl

/-- Claim C10 witness: the CSV part applied to a one-row record list. -/
theorem claim_C10_witness :
    ((PyVal.str "A", [(⟨.str "w", .int 2, .int 3⟩ : LineItem)]) :
      PyVal × List LineItem).2 ≠ [] :=
  claim_C10.1
    (.list [.dict [(.str "invoice_id", .str "A"), (.str "product", .str "w"),
      (.str "price", .int 2), (.str "qty", .int 3)]])
    ".csv" [(.str "A", [⟨.str "w", .int 2, .int 3⟩])] rfl rfl
    (.str "A", [⟨.str "w", .int 2, .int 3⟩]) (by simp)

/-! Section: Claim C1 (amended): qty and price typing per branch -/

theorem csvItem_price {kvs : List (PyVal × PyVal)} {item : LineItem}
    (h : csvItem (.dict kvs) = .ok item) :
    item.price = (dictLookup kvs (.str "price")).getD (.int 0) := by
  unfold csvItem at h
  simp only [pyGet, except_bind_ok] at h
  cases hq : pyInt ((dictLookup kvs (.str "qty")).getD
      ((dictLookup kvs (.str "quantity")).getD (.int 1))) with
  | error e => rw [hq] at h; exact absurd h (by simp)
  | ok n =>
    rw [hq] at h
    simp only [except_bind_ok] at h
    cases h
    rfl

/-- Claim C1 (amended): only the CSV branch coerces `qty` to an integer
(and `product` to a string); `price` is passed through verbatim in both
branches, and the JSON branch passes `qty` through verbatim as well
(default `1`), so a JSON qty is an integer only when the source value
is. -/
theorem claim_C1_amended :
    (∀ (data : PyVal) (sfx : String) (inv : InvoiceSet),
        (pyLower sfx == ".json") = false →
        parse_invoices_from_data data sfx = .ok inv →
        ∀ p ∈ inv, ∀ item ∈ p.2,
          (∃ n, item.qty = .int n) ∧ (∃ s, item.product = .str s)) ∧
    (∀ kvs item, csvItem (.dict kvs) = .ok item →
        item.price = (dictLookup kvs (.str "price")).getD (.int 0)) ∧
    (∀ kvs item, jsonItem (.dict kvs) = .ok item →
        item.price = (dictLookup kvs (.str "price")).getD (.int 0) ∧
        item.qty = (dictLookup kvs (.str "qty")).getD
          ((dictLookup kvs (.str "quantity")).getD (.int 1))) := by
  refine ⟨?_, fun kvs item h => csvItem_price h, ?_⟩
  · intro data sfx inv hsfx h p hp item hit
    rw [parse_invoices_from_data, if_neg (by simp [hsfx])] at h
    unfold parseCsv at h
    cases hrows : pyIter data with
    | error e => rw [hrows] at h; exact absurd h (by simp)
    | ok rows =>
      rw [hrows] at h
      simp only [except_bind_ok] at h
      exact (csvFold_good rows [] inv h (by simp) p hp).2.2 item hit
  · intro kvs item h
    simp only [jsonItem, pyGet, except_bind_ok] at h
    cases h
    exact ⟨rfl, rfl⟩

/-- Claim C1 (amended) witness: a CSV row with string qty `"3"` yields an
`int` qty and `str` product, and the price is passed through. -/
theorem claim_C1_witness :
    (∀ p ∈ [((PyVal.str "A" : PyVal), [(⟨.str "", .str "9.99", .int 3⟩ : LineItem)])],
        ∀ item ∈ p.2, (∃ n, item.qty = .int n) ∧ (∃ s, item.product = .str s)) ∧
    (⟨.str "", .str "9.99", .int 3⟩ : LineItem).price =
      (dictLookup [(.str "invoice_id", .str "A"), (.str "price", .str "9.99"),
        (.str "qty", .str "3")] (.str "price")).getD (.int 0) :=
  ⟨claim_C1_amended.1
      (.list [.dict [(.str "invoice_id", .str "A"), (.str "price", .str "9.99"),
        (.str "qty", .str "3")]])
      ".csv" _ rfl rfl,
   claim_C1_amended.2.1
      [(.str "invoice_id", .str "A"), (.str "price", .str "9.99"),
        (.str "qty", .str "3")]
      ⟨.str "", .str "9.99", .int 3⟩ rfl⟩

/-! Section: Claim C2 (amended): the shape of InvoiceSet keys -/

theorem defaultKeysTruthy {inv : InvoiceSet}
    (h : (Except.ok [(PyVal.str "default", [⟨.str "-", .int 0, .int 1⟩])] :
        Except String InvoiceSet) = Except.ok inv) :
    ∀ k ∈ invKeys inv, truthy k = true := by
  injection h with h2
  subst h2
  decide

/-- Claim C2 (amended): every key of the `InvoiceSet` is truthy (hence a
non-empty string whenever it is a string); in the CSV branch every key is
a non-empty string, but a JSON key taken from an explicit
`invoice_id`/`id` field keeps that field's type and may be a non-string. -/
theorem claim_C2_amended :
    ∀ (data : PyVal) (sfx : String) (inv : InvoiceSet),
      parse_invoices_from_data data sfx = .ok inv →
      (∀ k ∈ invKeys inv, truthy k = true) ∧
      ((pyLower sfx == ".json") = false →
        ∀ k ∈ invKeys inv, ∃ s, k = .str s ∧ s ≠ "") := by
  intro data sfx inv h
  by_cases hj : (pyLower sfx == ".json") = true
  · rw [parse_invoices_from_data, if_pos hj] at h
    refine ⟨?_, fun hc => absurd hj (by simp [hc])⟩
    cases data with
    | list elems =>
      have h2 : jsonFold [] elems = .ok inv := h
      exact jsonFold_keys_pred (fun k => truthy k = true)
        (fun numKeys inv2 iid hid => jsonDerivedId_truthy hid)
        elems [] inv h2 (by simp [invKeys])
    | none => exact defaultKeysTruthy h
    | bool b => exact defaultKeysTruthy h
    | int n => exact defaultKeysTruthy h
    | float q => exact defaultKeysTruthy h
    | str s => exact defaultKeysTruthy h
    | dict kvs => exact defaultKeysTruthy h
  · have hj2 : (pyLower sfx == ".json") = false := by
      cases hx : pyLower sfx == ".json"
      · rfl
      · exact absurd hx hj
    rw [parse_invoices_from_data, if_neg (by simp [hj2])] at h
    unfold parseCsv at h
    cases hrows : pyIter data with
    | error e => rw [hrows] at h; exact absurd h (by simp)
    | ok rows =>
      rw [hrows] at h
      simp only [except_bind_ok] at h
      have hgood := csvFold_good rows [] inv h (by simp)
      have hkeys : ∀ k ∈ invKeys inv, ∃ s, k = .str s ∧ s ≠ "" := by
        intro k hk
        rw [invKeys] at hk
        obtain ⟨p, hp, hpk⟩ := List.mem_map.mp hk
        exact hpk ▸ (hgood p hp).1
      refine ⟨?_, fun _ => hkeys⟩
      intro k hk
      obtain ⟨s, hks, hs⟩ := hkeys k hk
      subst hks
      simp [truthy, hs]

/-- Claim C2 (amended) witness: the key of a one-element JSON parse is
truthy. -/
theorem claim_C2_witness : truthy (PyVal.int 7) = true :=
  (claim_C2_amended
    (.list [.dict [(.str "invoice_id", .int 7), (.str "items", .list [])]])
    ".json" [(.int 7, [])] rfl).1 (.int 7) (by simp [invKeys])

/-! Section: Claim C4: CSV grouping and silent row dropping -/

/-- Claim C4: in the CSV branch a row whose derived id is blank is
silently excluded (no error, no synthesized id, no key `""`), and every
other row contributes exactly one line item to the sequence keyed by its
derived id, in file order, with repeated ids accumulating all their rows'
items. -/
theorem claim_C4 :
    ∀ (rows : List PyVal) (inv : InvoiceSet),
      parse_invoices_from_data (.list rows) ".csv" = .ok inv →
      (∀ key : String, key ≠ "" →
        ((invLookup inv (.str key)).isSome = true ↔ key ∈ csvSpecKeys rows) ∧
        (∀ items, invLookup inv (.str key) = some items →
          csvItemsOf (matchedRows rows key) = .ok items)) ∧
      invLookup inv (.str "") = Option.none ∧
      (∀ (r : PyVal) (rs : List PyVal) (acc : InvoiceSet),
        rowKey r = some "" → csvFold acc (r :: rs) = csvFold acc rs) := by
  intro rows inv h
  have h2 : csvFold [] rows = .ok inv := h
  refine ⟨?_, ?_, ?_⟩
  · intro key hkey
    obtain ⟨more, hmore, hlook⟩ := csvFold_lookup rows [] inv h2 key hkey
    have hbase : invLookup ([] : InvoiceSet) (.str key) = Option.none := rfl
    rw [hbase] at hlook
    simp only [Option.isSome_none, Bool.false_or, Option.getD_none,
      List.nil_append] at hlook
    have hiff : more ≠ [] ↔ key ∈ csvSpecKeys rows := by
      calc more ≠ [] ↔ matchedRows rows key ≠ [] := not_congr (csvItemsOf_nil_iff hmore)
        _ ↔ key ∈ rows.filterMap rowKey := matchedRows_ne_nil_iff rows key
        _ ↔ key ∈ csvSpecKeys rows := by
            simp [csvSpecKeys, List.mem_filter, hkey]
    constructor
    · constructor
      · intro hs
        rw [hlook] at hs
        by_cases hm : more = []
        · simp [hm] at hs
        · exact hiff.mp hm
      · intro hk
        have hm : more ≠ [] := hiff.mpr hk
        rw [hlook]
        simp [List.isEmpty_iff, hm]
    · intro items hitems
      rw [hlook] at hitems
      by_cases hm : more = []
      · simp [hm] at hitems
      · simp [List.isEmpty_iff, hm] at hitems
        rw [hmore, hitems]
  · cases hl : invLookup inv (.str "") with
    | none => rfl
    | some v =>
      have hs : (invLookup inv (.str "")).isSome = true := by simp [hl]
      rw [invLookup_str_isSome_iff] at hs
      have hgood := csvFold_good rows [] inv h2 (by simp)
      rw [invKeys] at hs
      obtain ⟨p, hp, hpk⟩ := List.mem_map.mp hs
      obtain ⟨s, hps, hsne⟩ := (hgood p hp).1
      rw [hps] at hpk
      injection hpk with hpk
      exact absurd hpk hsne
  · intro r rs acc hblank
    cases hid : csvRowId r with
    | error e => rw [rowKey, hid] at hblank; exact absurd hblank (by simp)
    | ok rid =>
      rw [rowKey, hid] at hblank
      injection hblank with hblank
      have hstep : csvStep acc r = .ok acc := by
        unfold csvStep
        rw [hid]
        simp only [except_bind_ok]
        rw [if_pos (by simp [hblank])]
      simp only [csvFold, hstep, except_bind_ok]

/-- Claim C4 witness: the characterizations applied to a concrete
two-row CSV (one kept row, one blank row). -/
theorem claim_C4_witness :
    (((invLookup [((PyVal.str "A" : PyVal), [(⟨.str "", .int 0, .int 2⟩ : LineItem)])]
        (.str "A")).isSome = true) ↔
      "A" ∈ csvSpecKeys [.dict [(.str "invoice_id", .str "A"), (.str "qty", .str "2")],
        .dict [(.str "invoice_id", .str "")]]) ∧
    invLookup [((PyVal.str "A" : PyVal), [(⟨.str "", .int 0, .int 2⟩ : LineItem)])]
        (.str "") = Option.none := by
  have h := claim_C4
    [.dict [(.str "invoice_id", .str "A"), (.str "qty", .str "2")],
      .dict [(.str "invoice_id", .str "")]]
    [((PyVal.str "A" : PyVal), [(⟨.str "", .int 0, .int 2⟩ : LineItem)])] rfl
  exact ⟨(h.1 "A" (by decide)).1, h.2.1⟩

/-! Section: Claim C3 (amended): JSON key counting and overwriting -/

/-- Claim C3 (amended): every JSON array element receives an id (the
fallback always succeeds) and its items are stored under that id; an
element whose id — derived or synthesized (a synthesized fallback id can
collide with an existing key) — is already present overwrites that key's
items instead of adding a key, so the number of keys equals the number of
elements whose id was new when processed, and never exceeds the number of
elements. -/
theorem claim_C3_amended :
    (∀ (invoices : InvoiceSet) (inv : PyVal) (res : InvoiceSet),
        jsonStep invoices inv = .ok res →
        ∃ iid items, jsonDerivedId invoices.length inv = .ok iid ∧
          jsonItems inv = .ok items ∧
          res = invSet invoices iid items ∧
          invLookup res iid = some items ∧
          res.length = (if (invLookup invoices iid).isSome then invoices.length
                        else invoices.length + 1)) ∧
    (∀ (elems : List PyVal) (inv : InvoiceSet),
        parse_invoices_from_data (.list elems) ".json" = .ok inv →
        inv.length ≤ elems.length) := by
  constructor
  · intro invoices inv res h
    obtain ⟨iid, items, h1, h2, _, h4, h5, h6⟩ := jsonStep_char h
    exact ⟨iid, items, h1, h2, h4, h5, h6⟩
  · intro elems inv h
    have h2 : jsonFold [] elems = .ok inv := h
    simpa using jsonFold_length elems [] inv h2

/-- Claim C3 (amended) witness: one step at a concrete element, and the
key bound at a concrete two-element array with a collision. -/
theorem claim_C3_witness :
    (∃ iid items,
        jsonDerivedId ([] : InvoiceSet).length (.dict [(.str "invoice_id", .str "B")])
            = .ok iid ∧
        jsonItems (.dict [(.str "invoice_id", .str "B")]) = .ok items ∧
        [((PyVal.str "B" : PyVal), [(⟨.str "", .int 0, .int 1⟩ : LineItem)])]
            = invSet [] iid items ∧
        invLookup [((PyVal.str "B" : PyVal), [(⟨.str "", .int 0, .int 1⟩ : LineItem)])]
            iid = some items ∧
        [((PyVal.str "B" : PyVal), [(⟨.str "", .int 0, .int 1⟩ : LineItem)])].length
            = (if (invLookup ([] : InvoiceSet) iid).isSome
               then ([] : InvoiceSet).length else ([] : InvoiceSet).length + 1)) ∧
    [((PyVal.str "1" : PyVal), [(⟨.str "", .int 0, .int 1⟩ : LineItem)])].length ≤
      [PyVal.dict [(.str "invoice_id", .str "1")], PyVal.dict []].length :=
  ⟨claim_C3_amended.1 [] (.dict [(.str "invoice_id", .str "B")])
      [(.str "B", [⟨.str "", .int 0, .int 1⟩])] rfl,
   claim_C3_amended.2 [.dict [(.str "invoice_id", .str "1")], .dict []]
      [(.str "1", [⟨.str "", .int 0, .int 1⟩])] rfl⟩

/-! Section: Claim C6: file discovery -/

theorem mem_insertByName (e : FsEntry) (l : List FsEntry) (a : FsEntry) :
    a ∈ insertByName e l ↔ a = e ∨ a ∈ l := by
  induction l with
  | nil => simp [insertByName]
  | cons x xs ih =>
    by_cases h : e.name ≤ x.name
    · simp [insertByName, h]
    · rw [insertByName, if_neg h]
      simp only [List.mem_cons, ih]
      tauto

theorem mem_sortByName (l : List FsEntry) (a : FsEntry) :
    a ∈ sortByName l ↔ a ∈ l := by
  induction l with
  | nil => simp [sortByName]
  | cons x xs ih =>
    have hstep : sortByName (x :: xs) = insertByName x (sortByName xs) := rfl
    rw [hstep, mem_insertByName, ih]
    simp

theorem sorted_insertByName (e : FsEntry) (l : List FsEntry)
    (h : l.Pairwise (fun a b => a.name ≤ b.name)) :
    (insertByName e l).Pairwise (fun a b => a.name ≤ b.name) := by
  induction l with
  | nil => simp [insertByName]
  | cons x xs ih =>
    rcases List.pairwise_cons.mp h with ⟨hx, hxs⟩
    by_cases hle : e.name ≤ x.name
    · rw [insertByName, if_pos hle]
      refine List.pairwise_cons.mpr ⟨?_, h⟩
      intro b hb
      rcases List.mem_cons.mp hb with rfl | hb
      · exact hle
      · exact le_trans hle (hx b hb)
    · rw [insertByName, if_neg hle]
      refine List.pairwise_cons.mpr ⟨?_, ih hxs⟩
      intro b hb
      rcases (mem_insertByName e xs b).mp hb with rfl | hb
      · exact le_of_not_le hle
      · exact hx b hb

theorem sortByName_pairwise (l : List FsEntry) :
    (sortByName l).Pairwise (fun a b => a.name ≤ b.name) := by
  induction l with
  | nil => simp [sortByName]
  | cons x xs ih => exact sorted_insertByName x (sortByName xs) ih

theorem dataFilesLoop_eq (l : List FsEntry) :
    dataFilesLoop l =
      (l.filter (fun f => f.isFile && (pyLower (pathSuffix f.name) == ".csv")),
       l.filter (fun f => f.isFile && (pyLower (pathSuffix f.name) == ".json"))) := by
  induction l with
  | nil => rfl
  | cons f fs ih =>
    rw [dataFilesLoop, ih]
    by_cases h1 : (f.isFile && (pyLower (pathSuffix f.name) == ".csv")) = true
    · have h2 : (f.isFile && (pyLower (pathSuffix f.name) == ".json")) = false := by
        have h1b : f.isFile = true ∧ (pyLower (pathSuffix f.name) == ".csv") = true := by
          simpa using h1
        have hcsv : pyLower (pathSuffix f.name) = ".csv" := by simpa using h1b.2
        simp [hcsv]
      simp [List.filter_cons, h1, h2]
    · by_cases h2 : (f.isFile && (pyLower (pathSuffix f.name) == ".json")) = true
      · simp [List.filter_cons, h1, h2]
      · simp [List.filter_cons, h1, h2]

/-- Claim C6: discovery on a missing directory returns empty lists; on an
existing one it returns exactly the regular files whose suffix matches
case-insensitively, each list sorted ascending by name; and the data-file
list offered to the user is all CSV files followed by all JSON files. -/
theorem claim_C6 :
    (get_data_files Option.none = ([], []) ∧ get_templates Option.none = []) ∧
    (∀ (entries : List FsEntry) (e : FsEntry),
        (e ∈ (get_data_files (some entries)).1 ↔
          e ∈ entries ∧ e.isFile = true ∧ pyLower (pathSuffix e.name) = ".csv") ∧
        (e ∈ (get_data_files (some entries)).2 ↔
          e ∈ entries ∧ e.isFile = true ∧ pyLower (pathSuffix e.name) = ".json") ∧
        (e ∈ get_templates (some entries) ↔
          e ∈ entries ∧ e.isFile = true ∧ pyLower (pathSuffix e.name) = ".html")) ∧
    (∀ entries : List FsEntry,
        ((get_data_files (some entries)).1).Pairwise (fun a b => a.name ≤ b.name) ∧
        ((get_data_files (some entries)).2).Pairwise (fun a b => a.name ≤ b.name) ∧
        (get_templates (some entries)).Pairwise (fun a b => a.name ≤ b.name)) ∧
    (∀ dataDir, mainDataFiles dataDir =
        (get_data_files dataDir).1 ++ (get_data_files dataDir).2) := by
  refine ⟨⟨rfl, rfl⟩, ?_, ?_, fun dataDir => rfl⟩
  · intro entries e
    refine ⟨?_, ?_, ?_⟩
    · rw [get_data_files, dataFilesLoop_eq]
      simp [List.mem_filter, mem_sortByName]
    · rw [get_data_files, dataFilesLoop_eq]
      simp [List.mem_filter, mem_sortByName]
    · rw [get_templates]
      simp [List.mem_filter, mem_sortByName]
  · intro entries
    refine ⟨?_, ?_, ?_⟩
    · rw [get_data_files, dataFilesLoop_eq]
      exact (sortByName_pairwise entries).sublist (List.filter_sublist _)
    · rw [get_data_files, dataFilesLoop_eq]
      exact (sortByName_pairwise entries).sublist (List.filter_sublist _)
    · rw [get_templates]
      exact (sortByName_pairwise entries).sublist (List.filter_sublist _)

/-- Claim C6 witness: the membership characterization at a concrete
directory listing. -/
theorem claim_C6_witness :
    (⟨"b.CSV", true⟩ : FsEntry) ∈
        (get_data_files (some [⟨"b.CSV", true⟩, ⟨"a.json", true⟩,
          ⟨"sub.csv", false⟩])).1 ↔
      (⟨"b.CSV", true⟩ : FsEntry) ∈ [(⟨"b.CSV", true⟩ : FsEntry),
          ⟨"a.json", true⟩, ⟨"sub.csv", false⟩] ∧
        (⟨"b.CSV", true⟩ : FsEntry).isFile = true ∧
        pyLower (pathSuffix (FsEntry.name ⟨"b.CSV", true⟩)) = ".csv" :=
  (claim_C6.2.1 [⟨"b.CSV", true⟩, ⟨"a.json", true⟩, ⟨"sub.csv", false⟩]
    ⟨"b.CSV", true⟩).1

/-! Section: Claim C9: exit codes -/

theorem mainRender_not_exit1 (env : Env) (tmplPath : FsEntry) (invoices : InvoiceSet)
    (inputs2 : List String) :
    exitCode (mainRender env tmplPath invoices inputs2) ≠ some 1 := by
  unfold mainRender
  split
  · simp [exitCode]
  · split
    · simp [exitCode]
    · dsimp only
      split <;> simp [exitCode]

theorem mainLoadStage_exit1_iff (env : Env) (dataPath tmplPath : FsEntry)
    (inputs2 : List String) :
    exitCode (mainLoadStage env dataPath tmplPath inputs2) = some 1 ↔
      ∃ raw, env.load dataPath.name = .ok raw ∧
        parse_invoices_from_data raw (pathSuffix dataPath.name) = .ok [] := by
  unfold mainLoadStage
  cases hload : env.load dataPath.name with
  | error e => simp [exitCode]
  | ok raw =>
    dsimp only
    cases hparse : parse_invoices_from_data raw (pathSuffix dataPath.name) with
    | error e => simp [exitCode, hparse]
    | ok invoices =>
      dsimp only
      by_cases hemp : invoices.isEmpty = true
      · have hinv : invoices = [] := by simpa using hemp
        rw [if_pos hemp]
        simp [exitCode, hparse, hinv]
      · rw [if_neg hemp]
        constructor
        · intro hc
          exact absurd hc (mainRender_not_exit1 env tmplPath invoices inputs2)
        · rintro ⟨raw2, hr2, hp2⟩
          injection hr2 with hr2
          subst hr2
          rw [hparse] at hp2
          injection hp2 with hp2
          exact absurd (by simp [hp2]) hemp

/-- Claim C9: the program exits with code 1 exactly when no data files
are discovered, or no templates are discovered, or the selected file
normalizes to an empty `InvoiceSet`; in the first two cases it exits
before consuming any user input, and an error-free completed run exits
with code 0 (the modelled non-exit outcomes — exhausted input and an
uncaught exception — carry no `sys.exit` code). -/
theorem claim_C9 :
    ∀ env : Env,
      (exitCode (main_run env) = some 1 ↔
        (mainDataFiles env.dataDir = [] ∨
         (mainDataFiles env.dataDir ≠ [] ∧ get_templates env.tmplDir = []) ∨
         (∃ idxData inputs1 idxTpl inputs2 raw,
            mainDataFiles env.dataDir ≠ [] ∧ get_templates env.tmplDir ≠ [] ∧
            selectRun (mainDataFiles env.dataDir).length env.inputs
              = some (idxData, inputs1) ∧
            selectRun (get_templates env.tmplDir).length inputs1
              = some (idxTpl, inputs2) ∧
            env.load ((mainDataFiles env.dataDir).getD idxData ⟨"", false⟩).name
              = .ok raw ∧
            parse_invoices_from_data raw
              (pathSuffix ((mainDataFiles env.dataDir).getD idxData ⟨"", false⟩).name)
              = .ok []))) ∧
      (mainDataFiles env.dataDir = [] →
        ∀ inputs : List String,
          main_run ⟨env.dataDir, env.tmplDir, env.load, env.renderEmit, inputs⟩
            = .exitNoData) ∧
      (mainDataFiles env.dataDir ≠ [] → get_templates env.tmplDir = [] →
        ∀ inputs : List String,
          main_run ⟨env.dataDir, env.tmplDir, env.load, env.renderEmit, inputs⟩
            = .exitNoTemplates) ∧
      ((∃ f, main_run env = .success f) ↔ exitCode (main_run env) = some 0) := by
  intro env
  refine ⟨?_, ?_, ?_, ?_⟩
  · by_cases hd : (mainDataFiles env.dataDir).isEmpty = true
    · have hmain : main_run env = .exitNoData := by
        unfold main_run; rw [if_pos hd]
      have hdl : mainDataFiles env.dataDir = [] := by simpa using hd
      simp [hmain, exitCode, hdl]
    · have hdl : mainDataFiles env.dataDir ≠ [] := by
        intro hc; exact hd (by simp [hc])
      by_cases ht : (get_templates env.tmplDir).isEmpty = true
      · have hmain : main_run env = .exitNoTemplates := by
          unfold main_run; rw [if_neg (by simp [hd]), if_pos ht]
        have htl : get_templates env.tmplDir = [] := by simpa using ht
        simp [hmain, exitCode, hdl, htl]
      · have htl : get_templates env.tmplDir ≠ [] := by
          intro hc; exact ht (by simp [hc])
        cases hs1 : selectRun (mainDataFiles env.dataDir).length env.inputs with
        | none =>
          have hmain : main_run env = .blocked := by
            unfold main_run
            rw [if_neg (by simp [hd]), if_neg (by simp [ht]), hs1]
          simp [hmain, exitCode, hdl, htl, hs1]
        | some p1 =>
          obtain ⟨idxData, inputs1⟩ := p1
          cases hs2 : selectRun (get_templates env.tmplDir).length inputs1 with
          | none =>
            have hmain : main_run env = .blocked := by
              unfold main_run
              rw [if_neg (by simp [hd]), if_neg (by simp [ht]), hs1]
              dsimp only
              rw [hs2]
            simp [hmain, exitCode, hdl, htl, hs1, hs2]
          | some p2 =>
            obtain ⟨idxTpl, inputs2⟩ := p2
            have hmain : main_run env =
                mainLoadStage env ((mainDataFiles env.dataDir).getD idxData ⟨"", false⟩)
                  ((get_templates env.tmplDir).getD idxTpl ⟨"", false⟩) inputs2 := by
              unfold main_run
              rw [if_neg (by simp [hd]), if_neg (by simp [ht]), hs1]
              dsimp only
              rw [hs2]
            rw [hmain, mainLoadStage_exit1_iff]
            constructor
            · rintro ⟨raw, h1, h2⟩
              exact Or.inr (Or.inr
                ⟨idxData, inputs1, idxTpl, inputs2, raw, hdl, htl, rfl, hs2, h1, h2⟩)
            · rintro (hc | ⟨-, hc⟩ | ⟨i1, in1, i2, in2, raw, -, -, hsel1, hsel2, hl, hp⟩)
              · exact absurd hc hdl
              · exact absurd hc htl
              · injection hsel1 with hpair
                injection hpair with hfst hsnd
                subst hfst
                subst hsnd
                exact ⟨raw, hl, hp⟩
  · intro hdl inputs
    have hd : (mainDataFiles env.dataDir).isEmpty = true := by simp [hdl]
    unfold main_run
    dsimp only
    rw [if_pos hd]
  · intro hdl htl inputs
    have hd : (mainDataFiles env.dataDir).isEmpty = false := by
      cases hx : (mainDataFiles env.dataDir).isEmpty
      · rfl
      · exact absurd (by simpa using hx) hdl
    have ht : (get_templates env.tmplDir).isEmpty = true := by simp [htl]
    unfold main_run
    dsimp only
    rw [if_neg (by simp [hd]), if_pos ht]
  · cases hmr : main_run env <;> simp [exitCode]

/-- Claim C9 witness: the prompt-free exits and the success/0
correspondence at a concrete environment. -/
theorem claim_C9_witness :
    (main_run ⟨some [], some [], fun _ => .error "io", fun _ _ _ => .ok (), ["1"]⟩
        = .exitNoData) ∧
    ((∃ f, main_run ⟨Option.none, Option.none, fun _ => .error "io",
          fun _ _ _ => .ok (), []⟩ = .success f) ↔
      exitCode (main_run ⟨Option.none, Option.none, fun _ => .error "io",
          fun _ _ _ => .ok (), []⟩) = some 0) :=
  ⟨(claim_C9 ⟨some [], some [], fun _ => .error "io", fun _ _ _ => .ok (), []⟩).2.1
      rfl ["1"],
   (claim_C9 ⟨Option.none, Option.none, fun _ => .error "io",
      fun _ _ _ => .ok (), []⟩).2.2.2⟩

end PdfGen
